import Mathlib

/-!
A shallow embedding of `src/main.py`: a small inventory hierarchy (Network /
Computer / Address / CPU / Memory / Disk with partitions) rendered as an ASCII
tree.  The `os` text sink of the Python code is modelled as the list of strings
written to it (`print_me` returns the list of `os.write` arguments, in order);
the full text is `String.join` of that list.  Python `int` is `Int`,
`str` is `String`, lists are `List`.
-/

namespace TreePrinter

/-- `TreePrinter.tree_connector`: `"\\-"` if last, else `"+-"`. -/
def tree_connector (is_last : Bool) : String :=
  if is_last then "\\-" else "+-"

/-- `TreePrinter.is_last(index, items)`: `index == len(items) - 1` as Python
integer arithmetic (hence the `Int` subtraction). -/
def is_last (index : Nat) (items : List α) : Bool :=
  (index : Int) == (items.length : Int) - 1

/-- `TreePrinter.sub_prefix(prefix, is_last)`: extend the prefix with two
spaces if last, else pipe-space. -/
def sub_prefix (pre : String) (is_last : Bool) : String :=
  pre ++ (if is_last then "  " else "| ")

end TreePrinter

/-- Python `str.isspace()` — the exact character set `str.rstrip()` strips:
U+0009–U+000D, U+001C–U+0020, NEL, NBSP, Ogham space mark, U+2000–U+200A,
line/paragraph separator, narrow NBSP, medium mathematical space, and the
ideographic space. -/
def pyIsSpace (c : Char) : Bool :=
  (0x09 ≤ c.toNat && c.toNat ≤ 0x0d)
  || (0x1c ≤ c.toNat && c.toNat ≤ 0x20)
  || c.toNat == 0x85 || c.toNat == 0xa0 || c.toNat == 0x1680
  || (0x2000 ≤ c.toNat && c.toNat ≤ 0x200a)
  || c.toNat == 0x2028 || c.toNat == 0x2029
  || c.toNat == 0x202f || c.toNat == 0x205f || c.toNat == 0x3000

/-- Python `s.rstrip()`: remove all trailing whitespace characters. -/
def pyRstrip (s : String) : String :=
  String.mk ((s.data.reverse.dropWhile pyIsSpace).reverse)

/-- `Printable.__str__`: render into a fresh buffer with the default arguments
(`prefix=""`; every concrete `print_me` defaults `is_last=True`) and apply
`rstrip()` to the buffer contents.  `pm` is the bound `print_me` method. -/
def Printable.str (pm : String → Bool → List String) : String :=
  pyRstrip (String.join (pm "" true))

/-- Modelled from the spec: "trims a single trailing newline" — the operation
the spec describes for `toDisplayString`, to be compared with what the code's
`rstrip()` actually does. -/
def stripOneTrailingNewline (s : String) : String :=
  if s.data.getLast? == some '\n' then String.mk s.data.dropLast else s

/-- `Address`: wraps the address string (`self._address`). -/
structure Address where
  address : String
deriving DecidableEq, Repr

/-- `Address.print_me`: writes `{prefix}{connector}{address}\n`. -/
def Address.print_me (a : Address) (pre : String) (is_last : Bool) : List String :=
  [pre ++ TreePrinter.tree_connector is_last ++ a.address ++ "\n"]

/-- `CPU(cores, mhz)`. -/
structure CPU where
  cores : Int
  mhz : Int
deriving DecidableEq, Repr

/-- `CPU.print_me`: writes `{prefix}{connector}CPU, {cores} cores @ {mhz}MHz\n`. -/
def CPU.print_me (c : CPU) (pre : String) (is_last : Bool) : List String :=
  [pre ++ TreePrinter.tree_connector is_last ++ "CPU, " ++ toString c.cores
    ++ " cores @ " ++ toString c.mhz ++ "MHz\n"]

/-- `Memory(size)`. -/
structure Memory where
  size : Int
deriving DecidableEq, Repr

/-- `Memory.print_me`: writes `{prefix}{connector}Memory, {size} MiB\n`. -/
def Memory.print_me (m : Memory) (pre : String) (is_last : Bool) : List String :=
  [pre ++ TreePrinter.tree_connector is_last ++ "Memory, " ++ toString m.size ++ " MiB\n"]

/-- `Disk(storage_type, size)` with its ordered partition list of
`(size, name)` pairs. -/
structure Disk where
  storage_type : Int
  size : Int
  partitions : List (Int × String)
deriving DecidableEq, Repr

/-- `Disk.SSD = 0` (Python class attribute). -/
def Disk.SSD : Int := 0

/-- `Disk.MAGNETIC = 1` (Python class attribute). -/
def Disk.MAGNETIC : Int := 1

/-- `Disk.add_partition(size, name)`: append `(size, name)` and return self. -/
def Disk.add_partition (d : Disk) (size : Int) (name : String) : Disk :=
  { d with partitions := d.partitions ++ [(size, name)] }

/-- `Disk.print_me`: header line with `"SSD"` when `storage_type == Disk.SSD`
else `"HDD"`, then one line per partition with its enumeration index. -/
def Disk.print_me (d : Disk) (pre : String) (is_last : Bool) : List String :=
  [pre ++ TreePrinter.tree_connector is_last
      ++ (if d.storage_type == Disk.SSD then "SSD" else "HDD")
      ++ ", " ++ toString d.size ++ " GiB\n"]
  ++ d.partitions.enum.map (fun p =>
      ( TreePrinter.sub_prefix pre is_last)
      ++ TreePrinter.tree_connector ( TreePrinter.is_last p.1 d.partitions)
      ++ "[" ++ toString p.1 ++ "]: " ++ toString p.2.1 ++ " GiB, " ++ p.2.2 ++ "\n")

/-- `Component`: the closed set of component classes attached to a `Computer`
(all subclasses of the abstract `Component` in the source). -/
inductive Component where
  | cpuC (c : CPU)
  | memC (m : Memory)
  | diskC (d : Disk)
deriving DecidableEq, Repr

/-- Dynamic dispatch of `print_me` over the component classes. -/
def Component.print_me : Component → String → Bool → List String
  | .cpuC c, pre, il => CPU.print_me c pre il
  | .memC m, pre, il => Memory.print_me m pre il
  | .diskC d, pre, il => Disk.print_me d pre il

/-- `Computer(name)` with its ordered addresses and components. -/
structure Computer where
  name : String
  addresses : List Address
  components : List Component
deriving DecidableEq, Repr

/-- `Computer.add_address(addr)`: append `Address(addr)` and return self. -/
def Computer.add_address (c : Computer) (addr : String) : Computer :=
  { c with addresses := c.addresses ++ [Address.mk addr] }

/-- `Computer.add_component(comp)`: append the component and return self. -/
def Computer.add_component (c : Computer) (comp : Component) : Computer :=
  { c with components := c.components ++ [comp] }

/-- `Computer.print_me`: `Host:` header, then each address at the extended
prefix (the last address is terminal only when there are no components), then
each component with last-of-list logic. -/
def Computer.print_me (c : Computer) (pre : String) (is_last : Bool) : List String :=
  [pre ++ TreePrinter.tree_connector is_last ++ "Host: " ++ c.name ++ "\n"]
  ++ c.addresses.enum.flatMap (fun p =>
      Address.print_me p.2 ( TreePrinter.sub_prefix pre is_last)
        ( TreePrinter.is_last p.1 c.addresses && c.components.length == 0))
  ++ c.components.enum.flatMap (fun p =>
      Component.print_me p.2 ( TreePrinter.sub_prefix pre is_last)
        ( TreePrinter.is_last p.1 c.components))

/-- `Network(name)` with its ordered computers. -/
structure Network where
  name : String
  computers : List Computer
deriving DecidableEq, Repr

/-- `Network.add_computer(comp)`: append and return self. -/
def Network.add_computer (n : Network) (comp : Computer) : Network :=
  { n with computers := n.computers ++ [comp] }

/-- The `for comp in self._computers: if comp.name == name: return comp` loop
of `Network.find_computer`. -/
def findComputerGo (name : String) : List Computer → Option Computer
  | [] => none
  | c :: rest => if c.name == name then some c else findComputerGo name rest

/-- `Network.find_computer(name)`: first computer whose name equals the query,
else `None`. -/
def Network.find_computer (n : Network) (name : String) : Option Computer :=
  findComputerGo name n.computers

/-- `Network.print_me`: writes the unprefixed `Network:` header, then every
computer with the empty prefix; the `prefix`/`is_last` parameters are unused. -/
def Network.print_me (n : Network) (pre : String) (is_last : Bool) : List String :=
  ["Network: " ++ n.name ++ "\n"]
  ++ n.computers.enum.flatMap (fun p =>
      Computer.print_me p.2 "" ( TreePrinter.is_last p.1 n.computers))

/-- `str(network)` (`Printable.__str__` on a `Network`). -/
def Network.toDisplayString (n : Network) : String :=
  Printable.str ( Network.print_me n)

/-- `str(address)`. -/
def Address.toDisplayString (a : Address) : String :=
  Printable.str ( Address.print_me a)

/-- `str(disk)`. -/
def Disk.toDisplayString (d : Disk) : String :=
  Printable.str ( Disk.print_me d)

/-- `Computer(name)` constructor: empty address and component lists. -/
def Computer.new (name : String) : Computer :=
  { name := name, addresses := [], components := [] }

/-- `Network(name)` constructor: empty computer list. -/
def Network.new (name : String) : Network :=
  { name := name, computers := [] }

/-- `Disk(storage_type, size)` constructor: empty partition list. -/
def Disk.new (storage_type : Int) (size : Int) : Disk :=
  { storage_type := storage_type, size := size, partitions := [] }

/-!
Heap model for `Printable.clone` (`copy.deepcopy`).  Python objects live on a
heap and variables hold references; to state deep-copy independence we make the
computer objects heap-allocated (id = heap index) while their contents are
values (a fresh value copy of a `ComputerObj` is exactly what `deepcopy`
produces for the nested addresses, components and partitions: brand-new
objects sharing nothing).  `deepcopy` of a network allocates a fresh copy of
every referenced computer object at the end of the heap.
-/

/-- A heap-allocated `Computer` object (contents by value). -/
structure ComputerObj where
  name : String
  addresses : List Address
  components : List Component
deriving DecidableEq, Repr

/-- A `Network` value holding references (heap indices) to its computers. -/
structure NetworkRef where
  name : String
  computers : List Nat
deriving DecidableEq, Repr

/-- Dereference a computer id (default object is never reached for
well-formed networks). -/
def objAt (h : List ComputerObj) (id : Nat) : ComputerObj :=
  (h.get? id).getD ⟨"", [], []⟩

/-- `copy.deepcopy` on a network: every referenced computer object is copied
into a fresh heap cell; the resulting network references only the fresh
copies. -/
def cloneNetwork (h : List ComputerObj) (n : NetworkRef) :
    List ComputerObj × NetworkRef :=
  (h ++ n.computers.map (objAt h),
   ⟨n.name, (List.range n.computers.length).map (fun k => h.length + k)⟩)

/-- In-place `Computer.add_component` through a reference: mutate the heap
cell `id` by appending one component. -/
def addComponentRef (h : List ComputerObj) (id : Nat) (comp : Component) :
    List ComputerObj :=
  h.set id { objAt h id with components := (objAt h id).components ++ [comp] }

/-- In-place `Disk.add_partition` on the `j`-th component (when it is a disk)
of the computer object `id`: mutates that heap cell's nested disk. -/
def addPartitionRef (h : List ComputerObj) (id : Nat) (j : Nat)
    (size : Int) (name : String) : List ComputerObj :=
  h.set id
    { objAt h id with
      components := (objAt h id).components.set j
        (match (objAt h id).components.get? j with
         | some (Component.diskC d) => Component.diskC (d.add_partition size name)
         | some c => c
         | none => Component.cpuC ⟨0, 0⟩) }

/-- `Network.find_computer` through references: scan the id list, return the
first id whose object's name equals the query. -/
def findComputerRefGo (h : List ComputerObj) (name : String) : List Nat → Option Nat
  | [] => none
  | id :: rest =>
      if (objAt h id).name == name then some id else findComputerRefGo h name rest

/-- `Network.find_computer` on a reference network. -/
def NetworkRef.find_computer (h : List ComputerObj) (n : NetworkRef)
    (name : String) : Option Nat :=
  findComputerRefGo h name n.computers

/-- Observable component count of the computer object `id`
(`sum(1 for _ in comp.components)` in the source's test). -/
def componentsCount (h : List ComputerObj) (id : Nat) : Nat :=
  (objAt h id).components.length

/-- The two-host network of the golden render test, named "N", built through
the fluent builders exactly as the spec describes. -/
def demoNet : Network :=
  (( Network.new "N").add_computer
    (((( Computer.new "server1.misis.ru").add_address "192.168.1.1").add_component
        (Component.cpuC ⟨4, 2500⟩)).add_component (Component.memC ⟨16000⟩))).add_computer
    (((( Computer.new "server2.misis.ru").add_address "10.0.0.1").add_component
        (Component.cpuC ⟨8, 3200⟩)).add_component
        (Component.diskC ((( Disk.new Disk.MAGNETIC 2000).add_partition 500 "system").add_partition
          1500 "data")))

/-- The heap object for `server1.misis.ru` of the demo driver. -/
def server1Obj : ComputerObj :=
  ⟨"server1.misis.ru", [⟨"192.168.1.1"⟩], [Component.cpuC ⟨4, 2500⟩, Component.memC ⟨16000⟩]⟩

/-- The heap object for `server2.misis.ru` of the demo driver. -/
def server2Obj : ComputerObj :=
  ⟨"server2.misis.ru", [⟨"10.0.0.1"⟩],
   [Component.cpuC ⟨8, 3200⟩, Component.diskC ⟨Disk.MAGNETIC, 2000, [(500, "system"), (1500, "data")]⟩]⟩

/-- Demo heap: the two computer objects. -/
def demoHeap : List ComputerObj := [server1Obj, server2Obj]

/-- Demo network referencing the two heap objects. -/
def demoNetRef : NetworkRef := ⟨"MISIS network", [0, 1]⟩

/-- The SSD the demo driver adds to the clone's `server2.misis.ru`. -/
def newSSD : Component :=
  Component.diskC (( Disk.new Disk.SSD 500).add_partition 500 "fast_storage")

/-- A computer with two addresses and no components (for the address
connector rule). -/
def twoAddrComputer : Computer :=
  (( Computer.new "h").add_address "x").add_address "y"

/-- Two computers sharing the name `"dup"` (duplicate-name lookup). -/
def dupComputer1 : Computer := ( Computer.new "dup").add_address "1"

/-- Second computer named `"dup"`, distinguishable by its address. -/
def dupComputer2 : Computer := ( Computer.new "dup").add_address "2"

/-- Network with duplicate computer names. -/
def dupNet : Network := (( Network.new "nn").add_computer dupComputer1).add_computer dupComputer2

/-!  Shared helper lemmas. -/

theorem flatMap_singleton_eq_map (l : List α) (f : α → β) :
    (l.flatMap fun x => [f x]) = l.map f := by
  induction l with
  | nil => rfl
  | cons a t ih => simp [List.flatMap_cons, ih]

theorem fst_lt_of_mem_enum {l : List α} {p : Nat × α} (hp : p ∈ l.enum) :
    p.1 < l.length := by
  rw [List.mem_enum_iff_get?] at hp
  by_contra hlt
  rw [List.get?_eq_getElem?, List.getElem?_eq_none (by omega)] at hp
  exact Option.noConfusion hp

theorem is_last_eq_decide {l : List α} {i : Nat} (hi : i < l.length) :
    TreePrinter.is_last i l = decide (i + 1 = l.length) := by
  rw [Bool.eq_iff_iff]
  simp only [TreePrinter.is_last, beq_iff_eq, decide_eq_true_eq]
  omega

theorem is_last_false_of_lt {l : List α} {i : Nat} (hi : i + 1 < l.length) :
    TreePrinter.is_last i l = false := by
  rw [is_last_eq_decide (by omega)]
  simp
  omega

theorem string_foldl_append (l : List String) (a b : String) :
    l.foldl (· ++ ·) (a ++ b) = a ++ l.foldl (· ++ ·) b := by
  induction l generalizing b with
  | nil => rfl
  | cons s t ih => simp only [List.foldl_cons, String.append_assoc, ih]

theorem string_join_cons (s : String) (l : List String) :
    String.join (s :: l) = s ++ String.join l := by
  show List.foldl (· ++ ·) ("" ++ s) l = s ++ List.foldl (· ++ ·) "" l
  have h1 : ("" : String) ++ s = s := by simp
  have h2 : s ++ ("" : String) = s := by simp
  rw [h1]
  nth_rewrite 1 [← h2]
  exact string_foldl_append l s ""

set_option maxRecDepth 8000 in
/-- C1: building the network "N" with server1.misis.ru (192.168.1.1,
CPU(4,2500), Memory(16000)) and server2.misis.ru (10.0.0.1, CPU(8,3200),
Disk(MAGNETIC,2000) with partitions (500,"system"),(1500,"data")), in that
insertion order, renders via `__str__` to exactly the golden literal, with no
trailing newline. -/
theorem golden_render_exact :
    Network.toDisplayString demoNet =
      "Network: N\n+-Host: server1.misis.ru\n| +-192.168.1.1\n| +-CPU, 4 cores @ 2500MHz\n| \\-Memory, 16000 MiB\n\\-Host: server2.misis.ru\n  +-10.0.0.1\n  +-CPU, 8 cores @ 3200MHz\n  \\-HDD, 2000 GiB\n    +-[0]: 500 GiB, system\n    \\-[1]: 1500 GiB, data" := by
  decide

/-- C8: every fluent add operation (`add_address`/`add_component` on
`Computer`, `add_computer` on `Network`, `add_partition` on `Disk`) returns
the owning entity with exactly one element appended at the end of the
corresponding list and every other field unchanged. -/
theorem fluent_add_appends_one (c : Computer) (addr : String) (comp : Component)
    (n : Network) (cc : Computer) (d : Disk) (size : Int) (pname : String) :
    ((c.add_address addr).name = c.name
      ∧ (c.add_address addr).addresses = c.addresses ++ [Address.mk addr]
      ∧ (c.add_address addr).components = c.components)
    ∧ ((c.add_component comp).name = c.name
      ∧ (c.add_component comp).addresses = c.addresses
      ∧ (c.add_component comp).components = c.components ++ [comp])
    ∧ ((n.add_computer cc).name = n.name
      ∧ (n.add_computer cc).computers = n.computers ++ [cc])
    ∧ ((d.add_partition size pname).storage_type = d.storage_type
      ∧ (d.add_partition size pname).size = d.size
      ∧ (d.add_partition size pname).partitions = d.partitions ++ [(size, pname)]) :=
  ⟨⟨rfl, rfl, rfl⟩, ⟨rfl, rfl, rfl⟩, ⟨rfl, rfl⟩, rfl, rfl, rfl⟩

/-- C9: the text `Network.print_me` writes is independent of both the
`prefix` and `is_last` arguments; its first write is the unprefixed,
connector-free header. -/
theorem network_print_ignores_args (n : Network) (p1 p2 : String) (il1 il2 : Bool) :
    Network.print_me n p1 il1 = Network.print_me n p2 il2
    ∧ (Network.print_me n p1 il1).head? = some ("Network: " ++ n.name ++ "\n") :=
  ⟨rfl, rfl⟩

/-- C5 fails as stated: `__str__` strips ALL trailing whitespace
(Python `rstrip()`), not only a single trailing newline — here a trailing
space of the rendered content is also removed. -/
theorem str_strips_more_than_newline :
    Address.toDisplayString ⟨"a "⟩
      ≠ stripOneTrailingNewline (String.join (Address.print_me ⟨"a "⟩ "" true)) := by
  decide

/-- C5 amended: `__str__` equals `rstrip()` of the rendered buffer; when the
rendered text ends in exactly one newline with no other trailing whitespace
before it, this coincides with stripping that single trailing newline. -/
theorem str_is_rstrip_eq_single_newline_strip (pm : String → Bool → List String)
    (l : List Char)
    (h : (String.join (pm "" true)).data = l ++ ['\n'])
    (h2 : ∀ c, l.getLast? = some c → pyIsSpace c = false) :
    Printable.str pm = stripOneTrailingNewline (String.join (pm "" true))
    ∧ Printable.str pm = String.mk l := by
  have hdrop : (String.join (pm "" true)).data.reverse.dropWhile pyIsSpace = l.reverse := by
    rw [h, List.reverse_append]
    simp only [List.reverse_singleton, List.singleton_append, List.dropWhile_cons]
    rw [if_pos (by decide)]
    cases hr : l.reverse with
    | nil => simp
    | cons c t =>
        rw [List.dropWhile_cons, if_neg]
        have hc : l.getLast? = some c := by
          rw [List.getLast?_eq_head?_reverse, hr]
          rfl
        simp [h2 c hc]
  have hstr : Printable.str pm = String.mk l := by
    show pyRstrip (String.join (pm "" true)) = String.mk l
    rw [pyRstrip, hdrop, List.reverse_reverse]
  refine ⟨?_, hstr⟩
  rw [hstr, stripOneTrailingNewline, if_pos, h, List.dropLast_concat]
  rw [h]
  simp

/-- The joined `Disk.print_me` output split after the `prefix ++ connector`
part and the disk-type label. -/
theorem disk_join_eq (st size : Int) (parts : List (Int × String)) (pre : String) (il : Bool) :
    String.join (Disk.print_me ⟨st, size, parts⟩ pre il)
      = (pre ++ TreePrinter.tree_connector il)
        ++ ((if st == Disk.SSD then "SSD" else "HDD")
        ++ (", " ++ (toString size ++ (" GiB\n"
        ++ String.join (parts.enum.map (fun p =>
            ( TreePrinter.sub_prefix pre il)
            ++ TreePrinter.tree_connector ( TreePrinter.is_last p.1 parts)
            ++ "[" ++ toString p.1 ++ "]: " ++ toString p.2.1 ++ " GiB, " ++ p.2.2 ++ "\n")))))) := by
  simp only [Disk.print_me, List.singleton_append, string_join_cons, String.append_assoc]

/-- C5 witness: for a network whose render ends in exactly one newline with no
other trailing whitespace, `__str__` equals the single-newline strip. -/
theorem str_is_rstrip_eq_single_newline_strip_witness :
    Printable.str ( Network.print_me ( Network.new "M"))
      = stripOneTrailingNewline (String.join ( Network.print_me ( Network.new "M") "" true))
    ∧ Printable.str ( Network.print_me ( Network.new "M")) = String.mk "Network: M".data := by
  apply str_is_rstrip_eq_single_newline_strip ( Network.print_me ( Network.new "M")) "Network: M".data
  · decide
  · intro c hc
    have hm : "Network: M".data.getLast? = some 'M' := by decide
    rw [hm] at hc
    cases hc
    decide

/-- C7: rendering a Disk constructed with kind SSD produces output containing
the substring "SSD"; kind MAGNETIC produces output containing "HDD", for
every size, partition list, prefix and is_last argument. -/
theorem disk_label_mapping (size : Int) (parts : List (Int × String)) (pre : String) (il : Bool) :
    (∃ s1 s2, String.join (Disk.print_me ⟨Disk.SSD, size, parts⟩ pre il) = s1 ++ "SSD" ++ s2)
    ∧ (∃ s1 s2, String.join (Disk.print_me ⟨Disk.MAGNETIC, size, parts⟩ pre il)
        = s1 ++ "HDD" ++ s2) := by
  constructor
  · have e := disk_join_eq Disk.SSD size parts pre il
    rw [if_pos (by decide)] at e
    obtain ⟨y, hy⟩ : ∃ y, String.join (Disk.print_me ⟨Disk.SSD, size, parts⟩ pre il)
        = (pre ++ TreePrinter.tree_connector il) ++ ("SSD" ++ y) := ⟨_, e⟩
    refine ⟨pre ++ TreePrinter.tree_connector il, y, ?_⟩
    rw [hy]
    simp only [String.append_assoc]
  · have e := disk_join_eq Disk.MAGNETIC size parts pre il
    rw [if_neg (by decide)] at e
    obtain ⟨y, hy⟩ : ∃ y, String.join (Disk.print_me ⟨Disk.MAGNETIC, size, parts⟩ pre il)
        = (pre ++ TreePrinter.tree_connector il) ++ ("HDD" ++ y) := ⟨_, e⟩
    refine ⟨pre ++ TreePrinter.tree_connector il, y, ?_⟩
    rw [hy]
    simp only [String.append_assoc]

/-- C10: for ANY storage_type different from Disk.SSD (0) — not only
Disk.MAGNETIC (1) — the rendered label is "HDD": the code tests
"is it SSD, else HDD". -/
theorem nonssd_renders_hdd (st size : Int) (parts : List (Int × String)) (pre : String)
    (il : Bool) (h : st ≠ Disk.SSD) :
    ∃ s1 s2, String.join (Disk.print_me ⟨st, size, parts⟩ pre il) = s1 ++ "HDD" ++ s2 := by
  have e := disk_join_eq st size parts pre il
  rw [if_neg (by simpa using h)] at e
  obtain ⟨y, hy⟩ : ∃ y, String.join (Disk.print_me ⟨st, size, parts⟩ pre il)
      = (pre ++ TreePrinter.tree_connector il) ++ ("HDD" ++ y) := ⟨_, e⟩
  refine ⟨pre ++ TreePrinter.tree_connector il, y, ?_⟩
  rw [hy]
  simp only [String.append_assoc]

/-- C10 witness: storage_type 2 (neither enum constant) still renders "HDD". -/
theorem nonssd_renders_hdd_witness :
    (2 : Int) ≠ Disk.SSD
    ∧ ∃ s1 s2, String.join (Disk.print_me ⟨2, 1, []⟩ "" true) = s1 ++ "HDD" ++ s2 :=
  ⟨by decide, nonssd_renders_hdd 2 1 [] "" true (by decide)⟩

/-- The lookup loop misses every computer whose name differs from the query. -/
theorem findComputerGo_eq_none {q : String} {l : List Computer}
    (h : ∀ c ∈ l, c.name ≠ q) : findComputerGo q l = none := by
  induction l with
  | nil => rfl
  | cons c rest ih =>
      rw [findComputerGo, if_neg]
      · exact ih fun c' hc' => h c' (List.mem_cons_of_mem c hc')
      · simp only [beq_iff_eq]
        exact h c (List.mem_cons_self c rest)

/-- The lookup loop returns the first match of the scan. -/
theorem findComputerGo_first {q : String} (l1 : List Computer) (c : Computer)
    (l2 : List Computer) (hc : c.name = q) (h : ∀ c' ∈ l1, c'.name ≠ q) :
    findComputerGo q (l1 ++ c :: l2) = some c := by
  induction l1 with
  | nil =>
      rw [List.nil_append, findComputerGo, if_pos]
      simp only [beq_iff_eq]
      exact hc
  | cons a t ih =>
      rw [List.cons_append, findComputerGo, if_neg]
      · exact ih fun c' hc' => h c' (List.mem_cons_of_mem a hc')
      · simp only [beq_iff_eq]
        exact h a (List.mem_cons_self a t)

/-- C3: `find_computer` returns the first computer in insertion order whose
name equals the query (first wins on duplicates), and returns `None` — the
explicit not-found signal — when no name matches. -/
theorem find_computer_first_or_none (n : Network) (q : String) :
    ((∀ c ∈ n.computers, c.name ≠ q) → Network.find_computer n q = none)
    ∧ (∀ l1 c l2, n.computers = l1 ++ c :: l2 → c.name = q →
        (∀ c' ∈ l1, c'.name ≠ q) → Network.find_computer n q = some c) := by
  constructor
  · intro h
    exact findComputerGo_eq_none h
  · intro l1 c l2 hsplit hc h
    show findComputerGo q n.computers = some c
    rw [hsplit]
    exact findComputerGo_first l1 c l2 hc h

/-- C3 witness: with two computers both named "dup" the first inserted one is
returned (they differ in their addresses), and an absent name yields `None`. -/
theorem find_computer_first_or_none_witness :
    Network.find_computer dupNet "dup" = some dupComputer1
    ∧ Network.find_computer dupNet "zzz" = none := by
  constructor
  · exact (find_computer_first_or_none dupNet "dup").2 [] dupComputer1 [dupComputer2]
      (by decide) (by decide) (by intro c' hc'; cases hc')
  · exact (find_computer_first_or_none dupNet "zzz").1 (by decide)

/-- C4: a Computer with at least one address renders every non-last address
with the connector "+-"; the last address gets the terminal connector "\\-"
exactly when there are zero components, and "+-" as soon as there is at least
one component, regardless of the number of addresses. -/
theorem last_address_connector (c : Computer) (pre : String) (il : Bool)
    (as : List Address) (a : Address) (h : c.addresses = as ++ [a]) :
    Computer.print_me c pre il =
      [pre ++ TreePrinter.tree_connector il ++ "Host: " ++ c.name ++ "\n"]
      ++ as.enum.map (fun p =>
          ( TreePrinter.sub_prefix pre il) ++ "+-" ++ p.2.address ++ "\n")
      ++ [( TreePrinter.sub_prefix pre il)
          ++ (if c.components.length = 0 then "\\-" else "+-") ++ a.address ++ "\n"]
      ++ c.components.enum.flatMap (fun p =>
          Component.print_me p.2 ( TreePrinter.sub_prefix pre il)
            ( TreePrinter.is_last p.1 c.components)) := by
  have hconn : TreePrinter.tree_connector (c.components.length == 0)
      = if c.components.length = 0 then "\\-" else "+-" := by
    by_cases hc : c.components.length = 0 <;> simp [hc, TreePrinter.tree_connector]
  have hlast : TreePrinter.is_last as.length (as ++ [a]) = true := by
    rw [is_last_eq_decide (by simp)]
    simp
  have hsub : ∀ p ∈ as.enum,
      (( TreePrinter.sub_prefix pre il)
        ++ TreePrinter.tree_connector
            ( TreePrinter.is_last p.1 (as ++ [a]) && (c.components.length == 0))
        ++ p.2.address ++ "\n")
      = (( TreePrinter.sub_prefix pre il) ++ "+-" ++ p.2.address ++ "\n") := by
    intro p hp
    have hlt := fst_lt_of_mem_enum hp
    rw [is_last_false_of_lt (by simp; omega)]
    rfl
  simp only [Computer.print_me, h, Address.print_me]
  rw [flatMap_singleton_eq_map]
  rw [List.enum_append, List.enumFrom_singleton, List.map_append]
  rw [List.map_congr_left hsub]
  simp only [List.map_cons, List.map_nil, hlast, Bool.true_and, hconn]
  simp [List.append_assoc]

/-- C4 witness: two addresses, no components — the last address is terminal,
the first is not. -/
theorem last_address_connector_witness :
    twoAddrComputer.addresses = [Address.mk "x"] ++ [Address.mk "y"]
    ∧ Computer.print_me twoAddrComputer "" true =
      ["" ++ TreePrinter.tree_connector true ++ "Host: " ++ twoAddrComputer.name ++ "\n"]
      ++ [Address.mk "x"].enum.map (fun p =>
          ( TreePrinter.sub_prefix "" true) ++ "+-" ++ p.2.address ++ "\n")
      ++ [( TreePrinter.sub_prefix "" true)
          ++ (if twoAddrComputer.components.length = 0 then "\\-" else "+-")
          ++ (Address.mk "y").address ++ "\n"]
      ++ twoAddrComputer.components.enum.flatMap (fun p =>
          Component.print_me p.2 ( TreePrinter.sub_prefix "" true)
            ( TreePrinter.is_last p.1 twoAddrComputer.components)) :=
  ⟨by decide,
   last_address_connector twoAddrComputer "" true [Address.mk "x"] (Address.mk "y") (by decide)⟩

/-- C6: a Disk renders exactly one line per partition, in insertion order,
and the bracketed index of the line at position i is exactly i (computed from
enumeration order, for any size and name values). -/
theorem partition_lines_indexed (st size : Int) (parts : List (Int × String))
    (pre : String) (il : Bool) :
    (Disk.print_me ⟨st, size, parts⟩ pre il).length = 1 + parts.length
    ∧ ∀ i, (hi : i < parts.length) →
        (Disk.print_me ⟨st, size, parts⟩ pre il).get? (i + 1) =
          some (( TreePrinter.sub_prefix pre il)
            ++ TreePrinter.tree_connector (decide (i + 1 = parts.length))
            ++ "[" ++ toString i ++ "]: " ++ toString (parts.get ⟨i, hi⟩).1
            ++ " GiB, " ++ (parts.get ⟨i, hi⟩).2 ++ "\n") := by
  constructor
  · simp [Disk.print_me]
    omega
  · intro i hi
    show (_ :: List.map _ parts.enum).get? (i + 1) = _
    rw [List.get?_cons_succ, List.get?_eq_getElem?, List.getElem?_map, List.getElem?_enum]
    rw [List.getElem?_eq_getElem hi]
    simp only [Option.map_some']
    rw [is_last_eq_decide hi]
    simp [List.get_eq_getElem]

/-- C6 witness: the second partition line of a two-partition disk carries
index 1 and the terminal connector. -/
theorem partition_lines_indexed_witness :
    (Disk.print_me ⟨1, 5, [(7, "p"), (9, "q")]⟩ "" true).get? 2
      = some "  \\-[1]: 9 GiB, q\n" := by
  exact ((partition_lines_indexed 1 5 [(7, "p"), (9, "q")] "" true).2 1 (by decide)).trans
    (by decide)

/-- Dereferencing below the old length ignores appended cells. -/
theorem objAt_append_left (h t : List ComputerObj) (j : Nat) (hj : j < h.length) :
    objAt (h ++ t) j = objAt h j := by
  simp [objAt, List.get?_eq_getElem?, List.getElem?_append_left hj]

/-- Dereferencing an appended cell. -/
theorem objAt_append_add (h t : List ComputerObj) (k : Nat) :
    objAt (h ++ t) (h.length + k) = objAt t k := by
  simp [objAt, List.get?_eq_getElem?,
    List.getElem?_append_right (Nat.le_add_right h.length k), Nat.add_sub_cancel_left]

/-- Mutating one cell leaves every other cell unchanged. -/
theorem objAt_set_ne (h : List ComputerObj) (id j : Nat) (v : ComputerObj)
    (hne : id ≠ j) : objAt (h.set id v) j = objAt h j := by
  simp [objAt, List.get?_eq_getElem?, List.getElem?_set_ne hne]

/-- Mutating a valid cell stores the new object there. -/
theorem objAt_set_self (h : List ComputerObj) (id : Nat) (v : ComputerObj)
    (hlt : id < h.length) : objAt (h.set id v) id = v := by
  simp [objAt, List.get?_eq_getElem?, List.getElem?_set_self hlt]

/-- The reference-lookup loop only returns ids from the scanned list. -/
theorem findComputerRefGo_mem {h : List ComputerObj} {q : String} :
    ∀ {l : List Nat} {id : Nat}, findComputerRefGo h q l = some id → id ∈ l := by
  intro l
  induction l with
  | nil => intro id hid; cases hid
  | cons a t ih =>
      intro id hid
      rw [findComputerRefGo] at hid
      by_cases ha : (objAt h a).name == q
      · rw [if_pos ha] at hid
        cases hid
        exact List.mem_cons_self a t
      · rw [if_neg ha] at hid
        exact List.mem_cons_of_mem a (ih hid)

/-- C2: `clone` (deepcopy) yields a fully independent copy: the clone's
computers are fresh cells equal to the originals; adding a component to any
computer of the clone (including one obtained via `find_computer` on the
clone, whose result always lies in the clone) leaves every computer of the
original byte-for-byte unchanged and grows the clone's component count by
one; appending a partition to a disk inside the clone also leaves the
original unchanged; and mutating the original never changes the clone. -/
theorem clone_deep_independence (h : List ComputerObj) (n : NetworkRef)
    (hwf : ∀ id ∈ n.computers, id < h.length) :
    (∀ k idx idn, (cloneNetwork h n).2.computers.get? k = some idx →
        n.computers.get? k = some idn →
        objAt (cloneNetwork h n).1 idx = objAt h idn)
    ∧ (∀ comp id, id ∈ (cloneNetwork h n).2.computers →
        (∀ j ∈ n.computers,
          objAt (addComponentRef (cloneNetwork h n).1 id comp) j = objAt h j)
        ∧ componentsCount (addComponentRef (cloneNetwork h n).1 id comp) id
            = componentsCount (cloneNetwork h n).1 id + 1)
    ∧ (∀ id ∈ (cloneNetwork h n).2.computers, ∀ j size name, ∀ j0 ∈ n.computers,
        objAt (addPartitionRef (cloneNetwork h n).1 id j size name) j0 = objAt h j0)
    ∧ (∀ comp id, id ∈ n.computers → ∀ jx ∈ (cloneNetwork h n).2.computers,
        objAt (addComponentRef (cloneNetwork h n).1 id comp) jx
          = objAt (cloneNetwork h n).1 jx)
    ∧ (∀ q id,
        NetworkRef.find_computer (cloneNetwork h n).1 (cloneNetwork h n).2 q = some id →
        id ∈ (cloneNetwork h n).2.computers) := by
  have hxmem : ∀ id, id ∈ (cloneNetwork h n).2.computers →
      h.length ≤ id ∧ id < h.length + n.computers.length := by
    intro id hid
    simp only [cloneNetwork, List.mem_map, List.mem_range] at hid
    obtain ⟨k, hk, he⟩ := hid
    omega
  have hlen1 : (cloneNetwork h n).1.length = h.length + n.computers.length := by
    simp [cloneNetwork]
  refine ⟨?_, ?_, ?_, ?_, ?_⟩
  · intro k idx idn hx hn
    have hklen : k < n.computers.length := by
      by_contra hk
      rw [show (cloneNetwork h n).2.computers
            = (List.range n.computers.length).map (fun j => h.length + j) from rfl] at hx
      rw [List.get?_eq_getElem?, List.getElem?_eq_none (by simp; omega)] at hx
      exact Option.noConfusion hx
    have hxval : idx = h.length + k := by
      rw [show (cloneNetwork h n).2.computers
            = (List.range n.computers.length).map (fun j => h.length + j) from rfl] at hx
      rw [List.get?_eq_getElem?, List.getElem?_map, List.getElem?_range hklen] at hx
      simp at hx
      omega
    subst hxval
    have : objAt (cloneNetwork h n).1 (h.length + k)
        = objAt (n.computers.map (objAt h)) k := objAt_append_add h _ k
    rw [this]
    rw [objAt, List.get?_eq_getElem?, List.getElem?_map]
    rw [← List.get?_eq_getElem?, hn]
    rfl
  · intro comp id hid
    have hb := hxmem id hid
    constructor
    · intro j hj
      have hjlt : j < h.length := hwf j hj
      rw [addComponentRef, objAt_set_ne _ _ _ _ (by omega)]
      exact objAt_append_left h _ j hjlt
    · rw [addComponentRef, componentsCount, componentsCount,
        objAt_set_self _ _ _ (by omega)]
      simp
  · intro id hid j size name j0 hj0
    have hb := hxmem id hid
    have hjlt : j0 < h.length := hwf j0 hj0
    rw [addPartitionRef, objAt_set_ne _ _ _ _ (by omega)]
    exact objAt_append_left h _ j0 hjlt
  · intro comp id hid jx hjx
    have hb := hxmem jx hjx
    have hidlt : id < h.length := hwf id hid
    rw [addComponentRef, objAt_set_ne _ _ _ _ (by omega)]
  · intro q id hfind
    exact findComputerRefGo_mem hfind

/-- C2 witness: cloning the demo network, finding `server2.misis.ru` in the
clone (cell 3) and adding an SSD there leaves the original `server2` (cell 1)
at 2 components while the clone's has 3. -/
theorem clone_deep_independence_witness :
    NetworkRef.find_computer (cloneNetwork demoHeap demoNetRef).1
        (cloneNetwork demoHeap demoNetRef).2 "server2.misis.ru" = some 3
    ∧ componentsCount (cloneNetwork demoHeap demoNetRef).1 1 = 2
    ∧ componentsCount (cloneNetwork demoHeap demoNetRef).1 3 = 2
    ∧ componentsCount
        (addComponentRef (cloneNetwork demoHeap demoNetRef).1 3 newSSD) 3 = 3
    ∧ componentsCount
        (addComponentRef (cloneNetwork demoHeap demoNetRef).1 3 newSSD) 1 = 2 := by
  have H := clone_deep_independence demoHeap demoNetRef (by decide)
  have h3 : (3 : Nat) ∈ (cloneNetwork demoHeap demoNetRef).2.computers := by decide
  have hadd := (H.2.1 newSSD 3 h3).2
  have hkeep := (H.2.1 newSSD 3 h3).1 1 (by decide)
  refine ⟨by decide, by decide, by decide, ?_, ?_⟩
  · rw [hadd]
    decide
  · rw [componentsCount, hkeep]
    decide
